import Mathlib

/-!
Verification development for the snake game engine
(`gameengine/snake/snake.go` of Rican7/gogames).

The Go code works on `uint` (64-bit) values; we embed them as `Nat`
together with explicit `% 2^64` wraparound at the places where the Go
arithmetic can underflow or overflow (`x-1` on an unsigned zero, the
throttle reset `10 - (speed - 1)`).  Slices of points become `List Point`,
and the one loop that can run forever (rejection sampling in `placeFood`)
as well as the one place that can panic (indexing `snakeBody[0]` of an
empty slice) are embedded with `Option`: `none` models divergence/panic.
The implicit global `math/rand` source is embedded as an injected stream
`Nat → Nat` of draw results; `rand.Intn n` takes the next stream value
`% n`, which ranges over exactly the values the real source can produce.
-/

/-- Modulus of Go's 64-bit `uint` type. -/
def U : ℕ := 2 ^ 64

/-- Go unsigned subtraction `a - b` on `uint` (wraps modulo `2^64`).
For the values stored in engine fields we always have `a < U`. -/
def sub64 (a b : ℕ) : ℕ := (a + U - b % U) % U

/-- `Point` from snake.go: a coordinate pair on the 2D grid (Go `uint` fields). -/
structure Point where
  X : ℕ
  Y : ℕ
deriving DecidableEq

/-- `Status` from snake.go: the running state of the game. -/
inductive Status where
  | New
  | Playing
  | Lost
deriving DecidableEq

/-- `Direction` from snake.go: a 2D facing/moving direction. -/
inductive Direction where
  | Up
  | Down
  | Left
  | Right
deriving DecidableEq

/-- `Direction.isOpposite` from snake.go. -/
def Direction.isOpposite (d dir : Direction) : Bool :=
  (d == .Up && dir == .Down) ||
    (d == .Down && dir == .Up) ||
    (d == .Left && dir == .Right) ||
    (d == .Right && dir == .Left)

/-- Modelled from the spec: the function `opposite(d)` used by §8's
direction-reversal property (the source only has the relation
`isOpposite`). -/
def Direction.opposite : Direction → Direction
  | .Up => .Down
  | .Down => .Up
  | .Left => .Right
  | .Right => .Left

/-- `GameEngine` from snake.go.  All `uint` fields are embedded as `Nat`
(kept `< U` at every reachable state), `int` field `score` as `Nat`
(it starts at 0 and is only ever incremented). -/
structure GameEngine where
  status : Status
  playAreaWidth : ℕ
  playAreaHeight : ℕ
  score : ℕ
  speed : ℕ
  tickThrottleCount : ℕ
  foodLocation : Point
  snakeBody : List Point   -- head is first element, tail is last
  snakeDirection : Direction
  snakeDirectionLastMoved : Direction
  snakeShouldElongate : Bool
deriving DecidableEq

namespace GameEngine

/-- `(*GameEngine).NewGame` from snake.go: reinitializes the mutable state
to a fresh game.  `(w/4)*3` cannot overflow for `w < U`, so it is embedded
without wraparound; `w/4 - 1` can underflow (for `w < 4`) and is embedded
with `sub64`. -/
def NewGame (ge : GameEngine) : GameEngine :=
  { ge with
    status := .New
    score := 0
    speed := 1
    tickThrottleCount := 0
    foodLocation := ⟨ge.playAreaWidth / 4 * 3, ge.playAreaHeight / 2⟩
    snakeBody := [⟨ge.playAreaWidth / 4, ge.playAreaHeight / 2⟩,
                  ⟨sub64 (ge.playAreaWidth / 4) 1, ge.playAreaHeight / 2⟩]
    snakeDirection := .Right
    snakeDirectionLastMoved := .Right
    snakeShouldElongate := false }

/-- `(*GameEngine).UpdateDirection` from snake.go. -/
def UpdateDirection (ge : GameEngine) (dir : Direction) : GameEngine :=
  if ge.snakeDirection == dir || ge.snakeDirection.isOpposite dir ||
      ge.snakeDirectionLastMoved == dir || ge.snakeDirectionLastMoved.isOpposite dir then
    ge
  else
    { ge with snakeDirection := dir }

/-- `(*GameEngine).PlayNew` from the package-documented revision of
snake.go (src/unnamed/part_000): reset to a new game, then set the status
to `Playing`. -/
def PlayNew (ge : GameEngine) : GameEngine :=
  { ge.NewGame with status := .Playing }

/-- `(*GameEngine).tickThrottle` from snake.go.  Returns the `bool` result
together with the updated engine.  `10 - (ge.speed - 1)` is Go `uint`
arithmetic and wraps (for `speed ≥ 12`), hence `sub64`; the decrement
`tickThrottleCount--` happens only under `tickThrottleCount ≠ 0`, where
plain `Nat` subtraction agrees with Go. -/
def tickThrottle (ge : GameEngine) : Bool × GameEngine :=
  if ge.tickThrottleCount == 0 then
    (true, { ge with tickThrottleCount := sub64 10 (sub64 ge.speed 1) })
  else
    (false, { ge with tickThrottleCount := ge.tickThrottleCount - 1 })

/-- `(*GameEngine).wouldMoveCauseLoss` from snake.go.  The source's
`next.X < 0 || next.Y < 0` tests are identically false on Go `uint` and
contribute nothing; `playAreaWidth-1` / `playAreaHeight-1` are `uint`
subtractions and wrap at width/height 0, hence `sub64`. -/
def wouldMoveCauseLoss (ge : GameEngine) (next : Point) : Bool :=
  if ge.status == .Lost then
    true
  else if next.X > sub64 ge.playAreaWidth 1 || next.Y > sub64 ge.playAreaHeight 1 then
    true
  else
    ge.snakeBody.any fun point => next.X == point.X && next.Y == point.Y

/-- `(*GameEngine).moveSnake` from snake.go.  Returns `none` when
`snakeBody` is empty (the Go code would panic indexing `snakeBody[0]`;
this never happens on a reachable engine), otherwise the `bool` result
together with the updated engine.  The coordinate `±1` offsets are Go
`uint` arithmetic and wrap, hence `sub64` / `% U`. -/
def moveSnake (ge : GameEngine) : Option (Bool × GameEngine) :=
  match ge.snakeBody with
  | [] => none
  | head :: _ =>
    let direction := ge.snakeDirection
    let next : Point :=
      match direction with
      | .Up => ⟨head.X, sub64 head.Y 1⟩
      | .Down => ⟨head.X, (head.Y + 1) % U⟩
      | .Left => ⟨sub64 head.X 1, head.Y⟩
      | .Right => ⟨(head.X + 1) % U, head.Y⟩
    if ge.wouldMoveCauseLoss next then
      some (false, ge)
    else
      let inserted := next :: ge.snakeBody
      let newBody := if !ge.snakeShouldElongate then inserted.dropLast else inserted
      some (true,
        { ge with
          snakeBody := newBody
          snakeDirectionLastMoved := direction
          snakeShouldElongate := false })

/-- `(*GameEngine).isInScorePosition` from snake.go.  The `[]` case is
unreachable where the source calls this (right after a successful
`moveSnake`, whose result body is nonempty). -/
def isInScorePosition (ge : GameEngine) : Bool :=
  if ge.status == .Lost then
    false
  else
    match ge.snakeBody with
    | [] => false
    | head :: _ => head.X == ge.foodLocation.X && head.Y == ge.foodLocation.Y

/-- The rejection-sampling loop of `(*GameEngine).placeFood` from
snake.go, with explicit fuel: `none` models both the non-termination of
the loop (fuel exhausted on every bound) and the `rand.Intn` panic at a
zero dimension.  Each iteration draws `rng 0 % w` and `rng 1 % h` (the
two `rand.Intn` calls) and on success returns the accepted location
together with the remaining stream. -/
def placeFoodAux (w h : ℕ) (food : Point) (body : List Point) :
    ℕ → (ℕ → ℕ) → Option (Point × (ℕ → ℕ))
  | 0, _ => none
  | fuel + 1, rng =>
    if w = 0 ∨ h = 0 then
      none
    else
      let newLocation : Point := ⟨rng 0 % w, rng 1 % h⟩
      let rest : ℕ → ℕ := fun i => rng (i + 2)
      if newLocation.X == food.X || newLocation.Y == food.Y then
        placeFoodAux w h food body fuel rest
      else if body.contains newLocation then
        placeFoodAux w h food body fuel rest
      else
        some (newLocation, rest)

/-- `(*GameEngine).placeFood` from snake.go: run the loop against the
engine's dimensions, current food location and body, and store the
accepted location. -/
def placeFood (ge : GameEngine) (rng : ℕ → ℕ) (fuel : ℕ) :
    Option (GameEngine × (ℕ → ℕ)) :=
  (placeFoodAux ge.playAreaWidth ge.playAreaHeight ge.foodLocation ge.snakeBody fuel rng).map
    fun pr => ({ ge with foodLocation := pr.1 }, pr.2)

/-- The tail of `(*GameEngine).Tick` from snake.go, lines 147–166: the
part of the tick that runs once the throttle has fired (`moveSnake`, the
loss transition, and the scoring block).  It is factored into its own
definition only to keep the proofs below manageable; `Tick` (and the
variant `TickB`) call it for exactly the source's text. -/
def stepGo (ge1 : GameEngine) (rng : ℕ → ℕ) (fuel : ℕ) :
    Option (GameEngine × (ℕ → ℕ)) :=
  match ge1.moveSnake with
  | none => none
  | some (validMove, ge2) =>
    if !validMove then
      some ({ ge2 with status := .Lost }, rng)
    else if ge2.isInScorePosition then
      let newScore := ge2.score + 1
      let newSpeed := if newScore % 5 == 0 then (ge2.speed + 1) % U else ge2.speed
      let ge3 := { ge2 with score := newScore, speed := newSpeed }
      (ge3.placeFood rng fuel).map fun pr =>
        ({ pr.1 with snakeShouldElongate := true }, pr.2)
    else
      some (ge2, rng)

/-- `(*GameEngine).Tick` from snake.go (the `gameengine/snake` revision:
a `New` engine is promoted to `Playing` on its first executed step).
Returns the updated engine (the Go return value is its `status` field)
and the remaining random stream; `none` models panic/divergence. -/
def Tick (ge : GameEngine) (rng : ℕ → ℕ) (fuel : ℕ) :
    Option (GameEngine × (ℕ → ℕ)) :=
  if ge.status == .Lost then
    some (ge, rng)
  else
    let tt := ge.tickThrottle
    if !tt.1 then
      some (tt.2, rng)
    else
      let ge1 := if tt.2.status == .New then { tt.2 with status := .Playing } else tt.2
      stepGo ge1 rng fuel

/-- `(*GameEngine).Tick` from the package-documented revision of snake.go
(src/unnamed/part_000): identical step logic (shared through `stepGo`),
but a no-op whenever the status is not `Playing` (no `New → Playing`
promotion inside `Tick`; `PlayNew` is required to start). -/
def TickB (ge : GameEngine) (rng : ℕ → ℕ) (fuel : ℕ) :
    Option (GameEngine × (ℕ → ℕ)) :=
  if !(ge.status == .Playing) then
    some (ge, rng)
  else
    let tt := ge.tickThrottle
    if !tt.1 then
      some (tt.2, rng)
    else
      stepGo tt.2 rng fuel

end GameEngine

/-- `NewGameEngine` from snake.go: construct the engine with the given
play area dimensions (all other fields Go zero values) and reset it.
There is no validation of the dimensions. -/
def NewGameEngine (playAreaWidth playAreaHeight : ℕ) : GameEngine :=
  GameEngine.NewGame
    { status := .New
      playAreaWidth := playAreaWidth
      playAreaHeight := playAreaHeight
      score := 0
      speed := 0
      tickThrottleCount := 0
      foodLocation := ⟨0, 0⟩
      snakeBody := []
      snakeDirection := .Up
      snakeDirectionLastMoved := .Up
      snakeShouldElongate := false }

/-- One externally observable operation, for describing call sequences. -/
inductive Op where
  | tick
  | updateDir (d : Direction)
  | newGame
  | playNew

/-- Drive the engine through a list of operations, threading the random
stream; each `tick` gets the given fuel for its (at most one) food
placement. -/
def run (fuel : ℕ) : GameEngine → (ℕ → ℕ) → List Op → Option (GameEngine × (ℕ → ℕ))
  | ge, rng, [] => some (ge, rng)
  | ge, rng, op :: ops =>
    match op with
    | .tick =>
      match ge.Tick rng fuel with
      | none => none
      | some (ge', rng') => run fuel ge' rng' ops
    | .updateDir d => run fuel (ge.UpdateDirection d) rng ops
    | .newGame => run fuel ge.NewGame rng ops
    | .playNew => run fuel ge.PlayNew rng ops

/-- The engine state after a list of operations (discarding the stream). -/
def runState (fuel : ℕ) (ge : GameEngine) (rng : ℕ → ℕ) (ops : List Op) :
    Option GameEngine :=
  (run fuel ge rng ops).map Prod.fst

/-- Engine states reachable from some construction by externally
observable operations (with arbitrary random streams). -/
inductive Reaches : GameEngine → Prop where
  | init (w h : ℕ) : Reaches (NewGameEngine w h)
  | update {ge : GameEngine} (d : Direction) : Reaches ge → Reaches (ge.UpdateDirection d)
  | newGame {ge : GameEngine} : Reaches ge → Reaches ge.NewGame
  | playNew {ge : GameEngine} : Reaches ge → Reaches ge.PlayNew
  | tick {ge ge' : GameEngine} (rng rng' : ℕ → ℕ) (fuel : ℕ) :
      Reaches ge → ge.Tick rng fuel = some (ge', rng') → Reaches ge'

/-- Modelled from the spec: `baseInterval(speed) = max(1, 10 − (speed − 1))`
(§3 invariant 1); for `speed ≥ 1` the truncated `Nat` subtraction agrees
with the spec's integer formula. -/
def baseInterval (speed : ℕ) : ℕ := max 1 (10 - (speed - 1))

/-- Modelled from the spec: the claimed starting food location
`(⌊3·width/4⌋, ⌊height/2⌋)` (§4.3). -/
def specInitialFood (w h : ℕ) : Point := ⟨3 * w / 4, h / 2⟩

/-- A random stream that always draws 0. -/
def rngZero : ℕ → ℕ := fun _ => 0

/-- A random stream that always draws 3 (an adversarial stream: every
food candidate it produces on a 4×4 board is `(3,3)`). -/
def rngColumn3 : ℕ → ℕ := fun _ => 3

/-- The scripted random stream for the speed-increase trace on a 4×4
board: the five food placements draw the pairs `(2,1)`, `(1,2)`, `(2,3)`,
`(3,2)`, `(0,0)` in order. -/
def rngFoodTrace : ℕ → ℕ := fun i => [2, 1, 1, 2, 2, 3, 3, 2, 0, 0].getD i 0

/-- Eleven consecutive `Tick` calls: at speed 1 this is one full throttle
period (one executed step followed by ten throttled calls). -/
def tickGroup : List Op := List.replicate 11 Op.tick

/-- A call sequence on a 4×4 board that scores five times (the head eats
the initial food after two steps, then follows a scripted path to four
more food placements), driving the speed from 1 to 2. -/
def opsSpeedTrace : List Op :=
  [Op.tick] ++ tickGroup
    ++ (Op.updateDir .Up :: tickGroup)
    ++ (Op.updateDir .Left :: tickGroup)
    ++ tickGroup
    ++ (Op.updateDir .Down :: tickGroup)
    ++ tickGroup
    ++ (Op.updateDir .Right :: tickGroup)
    ++ tickGroup
    ++ (Op.updateDir .Up :: tickGroup)

/-- The engine state reached from `NewGameEngine 4 4` by `opsSpeedTrace`
with the stream `rngFoodTrace`: score 5, speed 2, and a throttle counter
of 10 (set from the pre-increment speed 1). -/
def geSpeedTrace : GameEngine :=
  { status := .Playing
    playAreaWidth := 4
    playAreaHeight := 4
    score := 5
    speed := 2
    tickThrottleCount := 10
    foodLocation := ⟨0, 0⟩
    snakeBody := [⟨3, 2⟩, ⟨3, 3⟩, ⟨2, 3⟩, ⟨1, 3⟩, ⟨1, 2⟩, ⟨1, 1⟩]
    snakeDirection := .Up
    snakeDirectionLastMoved := .Up
    snakeShouldElongate := true }

/-- The engine state reached from `NewGameEngine 4 4` by eleven `Tick`
calls: the head sits one cell left of the food with the throttle counter
back at 0, so the next `Tick` executes a scoring step. -/
def geStuck : GameEngine :=
  { status := .Playing
    playAreaWidth := 4
    playAreaHeight := 4
    score := 0
    speed := 1
    tickThrottleCount := 0
    foodLocation := ⟨3, 2⟩
    snakeBody := [⟨2, 2⟩, ⟨1, 2⟩]
    snakeDirection := .Right
    snakeDirectionLastMoved := .Right
    snakeShouldElongate := false }

/-- The engine state after the first `Tick` of a fresh `w×h` game (for
`8 ≤ w < U`, `1 ≤ h < U`): the first call already executes a step, moving
the head one cell right and resetting the throttle counter to 10. -/
def firstStepEngine (w h : ℕ) : GameEngine :=
  { status := .Playing
    playAreaWidth := w
    playAreaHeight := h
    score := 0
    speed := 1
    tickThrottleCount := 10
    foodLocation := ⟨w / 4 * 3, h / 2⟩
    snakeBody := [⟨w / 4 + 1, h / 2⟩, ⟨w / 4, h / 2⟩]
    snakeDirection := .Right
    snakeDirectionLastMoved := .Right
    snakeShouldElongate := false }

/-- The engine state after the twelfth `Tick` of a fresh `w×h` game (for
`8 ≤ w < U`, `1 ≤ h < U`): the second executed step. -/
def secondStepEngine (w h : ℕ) : GameEngine :=
  { firstStepEngine w h with
    snakeBody := [⟨w / 4 + 2, h / 2⟩, ⟨w / 4 + 1, h / 2⟩] }

/-- Whether a point lies inside the `w×h` grid. -/
def inGrid (w h : ℕ) (p : Point) : Bool :=
  decide (p.X < w) && decide (p.Y < h)

/-- Whether every point of a list lies inside the `w×h` grid. -/
def allInGrid (w h : ℕ) (l : List Point) : Bool :=
  l.all (inGrid w h)

/-- The engine after the scoring move out of `geStuck`: the head has
reached the food and `placeFood` is about to run. -/
def geStuckMoved : GameEngine :=
  { status := .Playing
    playAreaWidth := 4
    playAreaHeight := 4
    score := 0
    speed := 1
    tickThrottleCount := 10
    foodLocation := ⟨3, 2⟩
    snakeBody := [⟨3, 2⟩, ⟨2, 2⟩]
    snakeDirection := .Right
    snakeDirectionLastMoved := .Right
    snakeShouldElongate := false }

lemma sub64_eq_sub {a b : ℕ} (hba : b ≤ a) (ha : a < U) : sub64 a b = a - b := by
  unfold sub64 U at *
  omega

lemma wouldMoveCauseLoss_eq_false {ge : GameEngine} {next : Point}
    (h : ge.wouldMoveCauseLoss next = false) :
    ge.status ≠ .Lost ∧ next.X ≤ sub64 ge.playAreaWidth 1 ∧
      next.Y ≤ sub64 ge.playAreaHeight 1 ∧ next ∉ ge.snakeBody := by
  unfold GameEngine.wouldMoveCauseLoss at h
  split at h
  · simp at h
  · split at h
    · simp at h
    · rename_i hst hbnd
      simp only [beq_iff_eq] at hst
      refine ⟨by simpa using hst, ?_, ?_, ?_⟩
      · by_contra hx
        exact hbnd (by simp; omega)
      · by_contra hy
        exact hbnd (by simp; omega)
      · intro hmem
        have := List.any_eq_false.mp h next hmem
        simp at this

lemma moveSnake_spec {ge : GameEngine} {valid : Bool} {ge2 : GameEngine}
    (h : ge.moveSnake = some (valid, ge2)) :
    (valid = false ∧ ge2 = ge) ∨
    (valid = true ∧ ge.snakeBody ≠ [] ∧ ∃ next : Point,
      ge.wouldMoveCauseLoss next = false ∧
      ge2 = { ge with
        snakeBody :=
          if ge.snakeShouldElongate then next :: ge.snakeBody
          else (next :: ge.snakeBody).dropLast
        snakeDirectionLastMoved := ge.snakeDirection
        snakeShouldElongate := false }) := by
  unfold GameEngine.moveSnake at h
  cases hb : ge.snakeBody with
  | nil => rw [hb] at h; simp at h
  | cons head tail =>
    rw [hb] at h
    simp only at h
    split at h
    · rename_i hloss
      left
      simp only [Option.some.injEq, Prod.mk.injEq] at h
      exact ⟨h.1.symm, h.2.symm⟩
    · rename_i hloss
      right
      simp only [Option.some.injEq, Prod.mk.injEq] at h
      refine ⟨h.1.symm, by simp [hb], ?_⟩
      refine ⟨_, by simpa using hloss, ?_⟩
      rw [← h.2]
      cases hse : ge.snakeShouldElongate <;> simp [hse, hb]

lemma Tick_lost {ge : GameEngine} {rng : ℕ → ℕ} {fuel : ℕ}
    (h : ge.status = .Lost) : ge.Tick rng fuel = some (ge, rng) := by
  simp [GameEngine.Tick, h]

lemma TickB_not_playing {ge : GameEngine} {rng : ℕ → ℕ} {fuel : ℕ}
    (h : ge.status ≠ .Playing) : ge.TickB rng fuel = some (ge, rng) := by
  simp [GameEngine.TickB, h]

lemma Tick_throttled {ge : GameEngine} {rng : ℕ → ℕ} {fuel : ℕ}
    (h1 : ge.status ≠ .Lost) (h2 : ge.tickThrottleCount ≠ 0) :
    ge.Tick rng fuel =
      some ({ ge with tickThrottleCount := ge.tickThrottleCount - 1 }, rng) := by
  simp [GameEngine.Tick, GameEngine.tickThrottle, h1, h2]

lemma Tick_fire {ge : GameEngine} {rng : ℕ → ℕ} {fuel : ℕ}
    (h1 : ge.status ≠ .Lost) (h2 : ge.tickThrottleCount = 0) :
    ge.Tick rng fuel =
      GameEngine.stepGo
        { ge with tickThrottleCount := sub64 10 (sub64 ge.speed 1), status := .Playing }
        rng fuel := by
  unfold GameEngine.Tick GameEngine.tickThrottle
  cases hst : ge.status with
  | New => simp [hst, h2]
  | Playing => simp [hst, h2]
  | Lost => exact absurd hst h1

lemma stepGo_spec {ge1 ge' : GameEngine} {rng rng' : ℕ → ℕ} {fuel : ℕ}
    (h : GameEngine.stepGo ge1 rng fuel = some (ge', rng')) :
    ∃ (valid : Bool) (geM : GameEngine), ge1.moveSnake = some (valid, geM) ∧
      ((valid = false ∧ ge' = { geM with status := .Lost } ∧ rng' = rng) ∨
       (valid = true ∧ geM.isInScorePosition = false ∧ ge' = geM ∧ rng' = rng) ∨
       (valid = true ∧ geM.isInScorePosition = true ∧
         ∃ (p : Point) (rest : ℕ → ℕ),
           GameEngine.placeFoodAux geM.playAreaWidth geM.playAreaHeight geM.foodLocation
             geM.snakeBody fuel rng = some (p, rest) ∧
           ge' = { geM with
             score := geM.score + 1
             speed := if (geM.score + 1) % 5 = 0 then (geM.speed + 1) % U else geM.speed
             foodLocation := p
             snakeShouldElongate := true } ∧
           rng' = rest)) := by
  unfold GameEngine.stepGo at h
  cases hm : ge1.moveSnake with
  | none => rw [hm] at h; simp at h
  | some pr =>
    obtain ⟨valid, geM⟩ := pr
    rw [hm] at h
    refine ⟨valid, geM, rfl, ?_⟩
    cases valid with
    | false =>
      left
      simp only [Bool.not_false, if_true, Option.some.injEq, Prod.mk.injEq] at h
      exact ⟨rfl, h.1.symm, h.2.symm⟩
    | true =>
      simp only [Bool.not_true, Bool.false_eq_true, if_false] at h
      by_cases hs : geM.isInScorePosition = true
      · right; right
        rw [if_pos hs] at h
        unfold GameEngine.placeFood at h
        cases hp : GameEngine.placeFoodAux geM.playAreaWidth geM.playAreaHeight
            geM.foodLocation geM.snakeBody fuel rng with
        | none => rw [hp] at h; simp at h
        | some pr2 =>
          obtain ⟨p, rest⟩ := pr2
          rw [hp] at h
          simp only [Option.map_some', Option.some.injEq, Prod.mk.injEq] at h
          refine ⟨rfl, hs, p, rest, rfl, ?_, h.2.symm⟩
          rw [← h.1]
          by_cases h5 : (geM.score + 1) % 5 = 0
          · simp [h5]
          · simp [h5]
      · right; left
        simp only [Bool.not_eq_true] at hs
        rw [hs] at h
        simp only [Bool.false_eq_true, if_false, Option.some.injEq, Prod.mk.injEq] at h
        exact ⟨rfl, hs, h.1.symm, h.2.symm⟩

lemma tick_spec {ge ge' : GameEngine} {rng rng' : ℕ → ℕ} {fuel : ℕ}
    (h : ge.Tick rng fuel = some (ge', rng')) :
    (ge.status = .Lost ∧ ge' = ge ∧ rng' = rng) ∨
    (ge.status ≠ .Lost ∧ ge.tickThrottleCount ≠ 0 ∧
      ge' = { ge with tickThrottleCount := ge.tickThrottleCount - 1 } ∧ rng' = rng) ∨
    (ge.status ≠ .Lost ∧ ge.tickThrottleCount = 0 ∧
      GameEngine.stepGo
        { ge with tickThrottleCount := sub64 10 (sub64 ge.speed 1), status := .Playing }
        rng fuel = some (ge', rng')) := by
  by_cases hL : ge.status = .Lost
  · rw [Tick_lost hL] at h
    simp only [Option.some.injEq, Prod.mk.injEq] at h
    exact Or.inl ⟨hL, h.1.symm, h.2.symm⟩
  · by_cases hc : ge.tickThrottleCount = 0
    · exact Or.inr (Or.inr ⟨hL, hc, by rw [← Tick_fire hL hc]; exact h⟩)
    · rw [Tick_throttled hL hc] at h
      simp only [Option.some.injEq, Prod.mk.injEq] at h
      exact Or.inr (Or.inl ⟨hL, hc, h.1.symm, h.2.symm⟩)

lemma run_reaches {fuel : ℕ} {ops : List Op} :
    ∀ {ge : GameEngine} {rng : ℕ → ℕ} {ge' : GameEngine} {rng' : ℕ → ℕ},
      Reaches ge → run fuel ge rng ops = some (ge', rng') → Reaches ge' := by
  induction ops with
  | nil =>
    intro ge rng ge' rng' hge h
    simp only [run, Option.some.injEq, Prod.mk.injEq] at h
    rw [← h.1]
    exact hge
  | cons op ops ih =>
    intro ge rng ge' rng' hge h
    cases op with
    | tick =>
      simp only [run] at h
      cases ht : ge.Tick rng fuel with
      | none => rw [ht] at h; simp at h
      | some pr =>
        rw [ht] at h
        exact ih (Reaches.tick rng pr.2 fuel hge (by rw [ht])) h
    | updateDir d => exact ih (Reaches.update d hge) h
    | newGame => exact ih (Reaches.newGame hge) h
    | playNew => exact ih (Reaches.playNew hge) h

lemma runState_reaches {fuel : ℕ} {ge : GameEngine} {rng : ℕ → ℕ} {ops : List Op}
    {ge' : GameEngine} (hge : Reaches ge) (h : runState fuel ge rng ops = some ge') :
    Reaches ge' := by
  unfold runState at h
  cases hr : run fuel ge rng ops with
  | none => rw [hr] at h; simp at h
  | some pr =>
    rw [hr] at h
    simp only [Option.map_some', Option.some.injEq] at h
    rw [← h]
    exact run_reaches hge (by rw [hr])

lemma placeFoodAux_some {w h : ℕ} {food : Point} {body : List Point} :
    ∀ {fuel : ℕ} {rng : ℕ → ℕ} {p : Point} {rest : ℕ → ℕ},
      GameEngine.placeFoodAux w h food body fuel rng = some (p, rest) →
      p.X < w ∧ p.Y < h ∧ p ∉ body ∧ p.X ≠ food.X ∧ p.Y ≠ food.Y := by
  intro fuel
  induction fuel with
  | zero => intro rng p rest hp; simp [GameEngine.placeFoodAux] at hp
  | succ n ih =>
    intro rng p rest hp
    unfold GameEngine.placeFoodAux at hp
    split at hp
    · simp at hp
    · rename_i hwh
      simp only at hp
      split at hp
      · exact ih hp
      · split at hp
        · exact ih hp
        · rename_i hfood hbody
          simp only [Option.some.injEq, Prod.mk.injEq] at hp
          rw [← hp.1]
          push_neg at hwh
          simp only [Bool.or_eq_true, beq_iff_eq, not_or] at hfood
          exact ⟨Nat.mod_lt _ (by omega), Nat.mod_lt _ (by omega),
            fun hmem => hbody (List.elem_eq_true_of_mem hmem), hfood.1, hfood.2⟩

lemma length_score_inv {ge : GameEngine} (h : Reaches ge) :
    ge.snakeBody.length = ge.score + (if ge.snakeShouldElongate then 1 else 2) := by
  induction h with
  | init w h => simp [NewGameEngine, GameEngine.NewGame]
  | update d hge ih =>
    unfold GameEngine.UpdateDirection
    split
    · exact ih
    · simpa using ih
  | newGame hge ih => simp [GameEngine.NewGame]
  | playNew hge ih => simp [GameEngine.PlayNew, GameEngine.NewGame]
  | tick rng rng' fuel hge ht ih =>
    rename_i ge0 ge1
    rcases tick_spec ht with ⟨_, rfl, _⟩ | ⟨_, _, rfl, _⟩ | ⟨_, _, hstep⟩
    · exact ih
    · simpa using ih
    · obtain ⟨valid, geM, hm, hrest⟩ := stepGo_spec hstep
      rcases moveSnake_spec hm with ⟨hv, rfl⟩ | ⟨hv, hne, next, hloss, rfl⟩
      · rcases hrest with ⟨_, rfl, _⟩ | ⟨hvt, _, _, _⟩ | ⟨hvt, _, _⟩
        · simpa using ih
        · rw [hv] at hvt; exact absurd hvt (by simp)
        · rw [hv] at hvt; exact absurd hvt (by simp)
      · rcases hrest with ⟨hvt, _, _⟩ | ⟨_, _, rfl, _⟩ | ⟨_, _, p, rest, hp, rfl, _⟩
        · rw [hv] at hvt; exact absurd hvt (by simp)
        · cases hse : ge0.snakeShouldElongate <;>
            simp [hse, ih, List.length_dropLast]
        · cases hse : ge0.snakeShouldElongate <;>
            simp [hse, ih, List.length_dropLast]

lemma throttle_reset_le {s : ℕ} (hs : s < U) (h11 : s ≤ 11) :
    sub64 10 (sub64 s 1) ≤ 12 - s := by
  unfold sub64 U at *
  omega

lemma throttle_reset_le_succ {s : ℕ} (hs : s < U) (h11 : (s + 1) % U ≤ 11) :
    sub64 10 (sub64 s 1) ≤ 12 - (s + 1) % U := by
  unfold sub64 U at *
  omega

lemma speed_counter_inv {ge : GameEngine} (h : Reaches ge) :
    ge.speed < U ∧ (ge.speed ≤ 11 → ge.tickThrottleCount ≤ 12 - ge.speed) := by
  induction h with
  | init w h =>
    exact ⟨by show (1:ℕ) < U; decide, fun _ => by show (0:ℕ) ≤ 12 - 1; decide⟩
  | update d hge ih =>
    unfold GameEngine.UpdateDirection
    split
    · exact ih
    · exact ih
  | newGame hge ih =>
    exact ⟨by show (1:ℕ) < U; decide, fun _ => by show (0:ℕ) ≤ 12 - 1; decide⟩
  | playNew hge ih =>
    exact ⟨by show (1:ℕ) < U; decide, fun _ => by show (0:ℕ) ≤ 12 - 1; decide⟩
  | tick rng rng' fuel hge ht ih =>
    rename_i ge0 ge1
    rcases tick_spec ht with ⟨_, rfl, _⟩ | ⟨_, _, rfl, _⟩ | ⟨_, _, hstep⟩
    · exact ih
    · exact ⟨ih.1, fun hs => le_trans (Nat.sub_le _ _) (ih.2 hs)⟩
    · obtain ⟨valid, geM, hm, hrest⟩ := stepGo_spec hstep
      rcases moveSnake_spec hm with ⟨hv, rfl⟩ | ⟨hv, hne, next, hloss, rfl⟩
      · rcases hrest with ⟨_, rfl, _⟩ | ⟨hvt, _, _, _⟩ | ⟨hvt, _, _⟩
        · exact ⟨ih.1, fun hs => throttle_reset_le ih.1 hs⟩
        · rw [hv] at hvt; exact absurd hvt (by simp)
        · rw [hv] at hvt; exact absurd hvt (by simp)
      · rcases hrest with ⟨hvt, _, _⟩ | ⟨_, _, rfl, _⟩ | ⟨_, _, p, rest, hp, rfl, _⟩
        · rw [hv] at hvt; exact absurd hvt (by simp)
        · exact ⟨ih.1, fun hs => throttle_reset_le ih.1 hs⟩
        · constructor
          · show (if (ge0.score + 1) % 5 = 0 then (ge0.speed + 1) % U else ge0.speed) < U
            split_ifs with h5
            · exact Nat.mod_lt _ (by unfold U; positivity)
            · exact ih.1
          · intro hs
            replace hs :
                (if (ge0.score + 1) % 5 = 0 then (ge0.speed + 1) % U else ge0.speed) ≤ 11 := hs
            show sub64 10 (sub64 ge0.speed 1) ≤
              12 - (if (ge0.score + 1) % 5 = 0 then (ge0.speed + 1) % U else ge0.speed)
            split_ifs at hs ⊢ with h5
            · exact throttle_reset_le_succ ih.1 hs
            · exact throttle_reset_le ih.1 hs

lemma fresh_engine_bounds {w h : ℕ} (hw4 : 4 ≤ w) (hwU : w < U) (hh1 : 1 ≤ h) :
    ([⟨w / 4, h / 2⟩, ⟨sub64 (w / 4) 1, h / 2⟩] : List Point) ≠ [] ∧
    (∀ p ∈ ([⟨w / 4, h / 2⟩, ⟨sub64 (w / 4) 1, h / 2⟩] : List Point),
      p.X < w ∧ p.Y < h) ∧
    w / 4 * 3 < w ∧ h / 2 < h ∧
    (⟨w / 4 * 3, h / 2⟩ : Point) ∉
      ([⟨w / 4, h / 2⟩, ⟨sub64 (w / 4) 1, h / 2⟩] : List Point) := by
  have hsub : sub64 (w / 4) 1 = w / 4 - 1 := sub64_eq_sub (by omega) (by omega)
  refine ⟨by simp, ?_, by omega, by omega, ?_⟩
  · intro p hp
    rcases List.mem_cons.mp hp with rfl | hp2
    · exact ⟨by show w / 4 < w; omega, by show h / 2 < h; omega⟩
    · rcases List.mem_cons.mp hp2 with rfl | hp3
      · rw [hsub]
        exact ⟨by show w / 4 - 1 < w; omega, by show h / 2 < h; omega⟩
      · simp at hp3
  · intro hmem
    rcases List.mem_cons.mp hmem with heq | hmem2
    · have : w / 4 * 3 = w / 4 := congrArg Point.X heq
      omega
    · rcases List.mem_cons.mp hmem2 with heq | hmem3
      · have : w / 4 * 3 = sub64 (w / 4) 1 := congrArg Point.X heq
        rw [hsub] at this
        omega
      · simp at hmem3

lemma isInScore_false_head {ge : GameEngine} (h : ge.isInScorePosition = false)
    {next : Point} {rest : List Point}
    (hst : ge.status ≠ .Lost) (hb : ge.snakeBody = next :: rest) :
    next ≠ ge.foodLocation := by
  intro heq
  unfold GameEngine.isInScorePosition at h
  rw [if_neg (by simpa using hst), hb] at h
  simp only [heq] at h
  simp at h

lemma newBody_decomp {next : Point} {body : List Point} {e : Bool} (hne : body ≠ []) :
    ∃ rest2 : List Point,
      (if e = true then next :: body else (next :: body).dropLast) = next :: rest2 ∧
      ∀ p ∈ rest2, p ∈ body := by
  cases e with
  | true => exact ⟨body, by simp, fun p hp => hp⟩
  | false =>
    cases body with
    | nil => exact absurd rfl hne
    | cons b t =>
      refine ⟨(b :: t).dropLast, by simp, ?_⟩
      intro p hp
      exact List.mem_of_mem_dropLast hp

lemma bounds_inv {ge : GameEngine} (h : Reaches ge) :
    4 ≤ ge.playAreaWidth → ge.playAreaWidth < U →
    1 ≤ ge.playAreaHeight → ge.playAreaHeight < U →
    (ge.snakeBody ≠ [] ∧
     (∀ p ∈ ge.snakeBody, p.X < ge.playAreaWidth ∧ p.Y < ge.playAreaHeight) ∧
     ge.foodLocation.X < ge.playAreaWidth ∧ ge.foodLocation.Y < ge.playAreaHeight ∧
     ge.foodLocation ∉ ge.snakeBody) := by
  induction h with
  | init w h =>
    intro h1 h2 h3 h4
    exact fresh_engine_bounds h1 h2 h3
  | update d hge ih =>
    unfold GameEngine.UpdateDirection
    split
    · exact ih
    · intro h1 h2 h3 h4
      exact ih h1 h2 h3 h4
  | newGame hge ih =>
    intro h1 h2 h3 h4
    exact fresh_engine_bounds h1 h2 h3
  | playNew hge ih =>
    intro h1 h2 h3 h4
    exact fresh_engine_bounds h1 h2 h3
  | tick rng rng' fuel hge ht ih =>
    rename_i ge0 ge1
    rcases tick_spec ht with ⟨_, rfl, _⟩ | ⟨_, _, rfl, _⟩ | ⟨_, _, hstep⟩
    · exact ih
    · intro h1 h2 h3 h4
      exact ih h1 h2 h3 h4
    · obtain ⟨valid, geM, hm, hrest⟩ := stepGo_spec hstep
      rcases moveSnake_spec hm with ⟨hv, rfl⟩ | ⟨hv, hne0, next, hloss, rfl⟩
      · rcases hrest with ⟨_, rfl, _⟩ | ⟨hvt, _, _, _⟩ | ⟨hvt, _, _⟩
        · intro h1 h2 h3 h4
          exact ih h1 h2 h3 h4
        · rw [hv] at hvt; exact absurd hvt (by simp)
        · rw [hv] at hvt; exact absurd hvt (by simp)
      · have hb := wouldMoveCauseLoss_eq_false hloss
        have hnx : next.X ≤ sub64 ge0.playAreaWidth 1 := hb.2.1
        have hny : next.Y ≤ sub64 ge0.playAreaHeight 1 := hb.2.2.1
        have hnm : next ∉ ge0.snakeBody := hb.2.2.2
        have hne : ge0.snakeBody ≠ [] := hne0
        obtain ⟨rest2, hnb, hsub2⟩ :=
          @newBody_decomp next ge0.snakeBody ge0.snakeShouldElongate hne
        rcases hrest with ⟨hvt, _, _⟩ | ⟨_, hsc, rfl, _⟩ | ⟨_, hsc, p, rest, hp, rfl, _⟩
        · rw [hv] at hvt; exact absurd hvt (by simp)
        · -- non-scoring executed step
          intro h1 h2 h3 h4
          have h1a : 4 ≤ ge0.playAreaWidth := h1
          have h2a : ge0.playAreaWidth < U := h2
          have h3a : 1 ≤ ge0.playAreaHeight := h3
          have h4a : ge0.playAreaHeight < U := h4
          have IH := ih h1a h2a h3a h4a
          have hnxw : next.X < ge0.playAreaWidth := by
            rw [sub64_eq_sub (by omega) h2a] at hnx; omega
          have hnyh : next.Y < ge0.playAreaHeight := by
            rw [sub64_eq_sub (by omega) h4a] at hny; omega
          have hfn : next ≠ ge0.foodLocation :=
            isInScore_false_head hsc (by show (Status.Playing : Status) ≠ .Lost; simp) hnb
          refine ⟨?_, ?_, IH.2.2.1, IH.2.2.2.1, ?_⟩
          · show (if ge0.snakeShouldElongate = true then next :: ge0.snakeBody
              else (next :: ge0.snakeBody).dropLast) ≠ []
            rw [hnb]; simp
          · show ∀ p ∈ (if ge0.snakeShouldElongate = true then next :: ge0.snakeBody
              else (next :: ge0.snakeBody).dropLast),
              p.X < ge0.playAreaWidth ∧ p.Y < ge0.playAreaHeight
            rw [hnb]
            intro q hq
            rcases List.mem_cons.mp hq with rfl | hq2
            · exact ⟨hnxw, hnyh⟩
            · exact IH.2.1 q (hsub2 q hq2)
          · show ge0.foodLocation ∉ (if ge0.snakeShouldElongate = true then next :: ge0.snakeBody
              else (next :: ge0.snakeBody).dropLast)
            rw [hnb]
            intro hmem
            rcases List.mem_cons.mp hmem with heq | hmem2
            · exact hfn heq.symm
            · exact IH.2.2.2.2 (hsub2 _ hmem2)
        · -- scoring executed step
          intro h1 h2 h3 h4
          have h1a : 4 ≤ ge0.playAreaWidth := h1
          have h2a : ge0.playAreaWidth < U := h2
          have h3a : 1 ≤ ge0.playAreaHeight := h3
          have h4a : ge0.playAreaHeight < U := h4
          have IH := ih h1a h2a h3a h4a
          have hnxw : next.X < ge0.playAreaWidth := by
            rw [sub64_eq_sub (by omega) h2a] at hnx; omega
          have hnyh : next.Y < ge0.playAreaHeight := by
            rw [sub64_eq_sub (by omega) h4a] at hny; omega
          have hps := placeFoodAux_some hp
          have hpX : p.X < ge0.playAreaWidth := hps.1
          have hpY : p.Y < ge0.playAreaHeight := hps.2.1
          have hpB : p ∉ (if ge0.snakeShouldElongate = true then next :: ge0.snakeBody
              else (next :: ge0.snakeBody).dropLast) := hps.2.2.1
          refine ⟨?_, ?_, hpX, hpY, ?_⟩
          · show (if ge0.snakeShouldElongate = true then next :: ge0.snakeBody
              else (next :: ge0.snakeBody).dropLast) ≠ []
            rw [hnb]; simp
          · show ∀ q ∈ (if ge0.snakeShouldElongate = true then next :: ge0.snakeBody
              else (next :: ge0.snakeBody).dropLast),
              q.X < ge0.playAreaWidth ∧ q.Y < ge0.playAreaHeight
            rw [hnb]
            intro q hq
            rcases List.mem_cons.mp hq with rfl | hq2
            · exact ⟨hnxw, hnyh⟩
            · exact IH.2.1 q (hsub2 q hq2)
          · exact hpB

lemma stepGo_eq_of_moveSnake {ge1 geM : GameEngine} {rng : ℕ → ℕ} {fuel : ℕ}
    (hm : ge1.moveSnake = some (true, geM)) (hsc : geM.isInScorePosition = false) :
    GameEngine.stepGo ge1 rng fuel = some (geM, rng) := by
  unfold GameEngine.stepGo
  rw [hm]
  simp [hsc]

lemma isInScore_false_of {ge : GameEngine} (hst : ge.status = .Playing)
    {hd : Point} {t : List Point} (hb : ge.snakeBody = hd :: t)
    (hne : hd.X ≠ ge.foodLocation.X) : ge.isInScorePosition = false := by
  unfold GameEngine.isInScorePosition
  rw [if_neg (by rw [hst]; simp), hb]
  simp [hne]

lemma run_cons_tick {fuel : ℕ} {ge ge1 : GameEngine} {rng rng1 : ℕ → ℕ}
    {ops : List Op} (ht : ge.Tick rng fuel = some (ge1, rng1)) :
    run fuel ge rng (Op.tick :: ops) = run fuel ge1 rng1 ops := by
  simp only [run]
  rw [ht]

lemma run_append_some {fuel : ℕ} {l1 : List Op} :
    ∀ {ge : GameEngine} {rng : ℕ → ℕ} {geM : GameEngine} {rngM : ℕ → ℕ} {l2 : List Op},
      run fuel ge rng l1 = some (geM, rngM) →
      run fuel ge rng (l1 ++ l2) = run fuel geM rngM l2 := by
  induction l1 with
  | nil =>
    intro ge rng geM rngM l2 h
    simp only [run, Option.some.injEq, Prod.mk.injEq] at h
    rw [List.nil_append, h.1, h.2]
  | cons op l1 ih =>
    intro ge rng geM rngM l2 h
    cases op with
    | tick =>
      simp only [run] at h ⊢
      cases ht : ge.Tick rng fuel with
      | none => rw [ht] at h; simp at h
      | some pr =>
        rw [ht] at h
        exact ih h
    | updateDir d =>
      simp only [run] at h ⊢
      exact ih h
    | newGame =>
      simp only [run] at h ⊢
      exact ih h
    | playNew =>
      simp only [run] at h ⊢
      exact ih h

lemma run_throttle_chain :
    ∀ (k : ℕ) (ge : GameEngine), ge.status = .Playing → k ≤ ge.tickThrottleCount →
      ∀ (rng : ℕ → ℕ) (fuel : ℕ),
        run fuel ge rng (List.replicate k Op.tick) =
          some ({ ge with tickThrottleCount := ge.tickThrottleCount - k }, rng) := by
  intro k
  induction k with
  | zero => intro ge hst hk rng fuel; rfl
  | succ n ihn =>
    intro ge hst hk rng fuel
    have hcne : ge.tickThrottleCount ≠ 0 := by omega
    have ht := @Tick_throttled ge rng fuel (by rw [hst]; simp) hcne
    rw [show List.replicate (n + 1) Op.tick = Op.tick :: List.replicate n Op.tick from rfl,
      run_cons_tick ht]
    have harith : ge.tickThrottleCount - 1 - n = ge.tickThrottleCount - (n + 1) := by omega
    rw [ihn { ge with tickThrottleCount := ge.tickThrottleCount - 1 } hst
      (show n ≤ ge.tickThrottleCount - 1 by omega) rng fuel]
    simp only [harith]

lemma moveSnake_two_right {ge : GameEngine} {a b y w h : ℕ}
    (hb : ge.snakeBody = [⟨a, y⟩, ⟨b, y⟩])
    (hd : ge.snakeDirection = .Right)
    (he : ge.snakeShouldElongate = false)
    (hst : ge.status = .Playing)
    (hwe : ge.playAreaWidth = w) (hhe : ge.playAreaHeight = h)
    (hwU : w < U) (hhU : h < U) (h1w : 1 ≤ w) (h1h : 1 ≤ h)
    (haU : a + 1 < U) (haw : a + 1 ≤ w - 1) (hyh : y ≤ h - 1) (hane : a + 1 ≠ b) :
    ge.moveSnake = some (true,
      { ge with
        snakeBody := [⟨a + 1, y⟩, ⟨a, y⟩]
        snakeDirectionLastMoved := .Right
        snakeShouldElongate := false }) := by
  have hwml : ge.wouldMoveCauseLoss ⟨(a + 1) % U, y⟩ = false := by
    unfold GameEngine.wouldMoveCauseLoss
    rw [hb, hst, hwe, hhe, Nat.mod_eq_of_lt haU,
      sub64_eq_sub (by omega) hwU, sub64_eq_sub (by omega) hhU]
    simp [Nat.not_lt.mpr haw, Nat.not_lt.mpr hyh, hane]
  unfold GameEngine.moveSnake
  rw [hb]
  simp only [hd]
  rw [hwml]
  simp [he, hd, hb, Nat.mod_eq_of_lt haU]

set_option maxRecDepth 8000 in
lemma tick_fresh {w h : ℕ} (hw : 8 ≤ w) (hwU : w < U) (hh : 1 ≤ h) (hhU : h < U)
    (rng : ℕ → ℕ) (fuel : ℕ) :
    (NewGameEngine w h).Tick rng fuel = some (firstStepEngine w h, rng) := by
  have hq2 : 2 ≤ w / 4 := by omega
  rw [Tick_fire (by show (Status.New : Status) ≠ .Lost; simp) rfl]
  have hsub : sub64 (w / 4) 1 = w / 4 - 1 := sub64_eq_sub (by omega) (by omega)
  have hm := @moveSnake_two_right
    { NewGameEngine w h with
      tickThrottleCount := sub64 10 (sub64 (NewGameEngine w h).speed 1)
      status := .Playing }
    (w / 4) (sub64 (w / 4) 1) (h / 2) w h
    rfl rfl rfl rfl rfl rfl hwU hhU (by omega) (by omega)
    (by omega) (by omega) (by omega) (by rw [hsub]; omega)
  rw [stepGo_eq_of_moveSnake hm
    (isInScore_false_of rfl rfl (by show w / 4 + 1 ≠ w / 4 * 3; omega))]
  have h10 : sub64 10 (sub64 1 1) = 10 := by decide
  simp [NewGameEngine, GameEngine.NewGame, firstStepEngine, h10]

lemma tick_second {w h : ℕ} (hw : 8 ≤ w) (hwU : w < U) (hh : 1 ≤ h) (hhU : h < U)
    (rng : ℕ → ℕ) (fuel : ℕ) :
    ({ firstStepEngine w h with tickThrottleCount := 0 } : GameEngine).Tick rng fuel =
      some (secondStepEngine w h, rng) := by
  have hq2 : 2 ≤ w / 4 := by omega
  rw [Tick_fire (by show (Status.Playing : Status) ≠ .Lost; simp) rfl]
  have hm := @moveSnake_two_right
    { ({ firstStepEngine w h with tickThrottleCount := 0 } : GameEngine) with
      tickThrottleCount :=
        sub64 10 (sub64 ({ firstStepEngine w h with tickThrottleCount := 0 } : GameEngine).speed 1)
      status := .Playing }
    (w / 4 + 1) (w / 4) (h / 2) w h
    rfl rfl rfl rfl rfl rfl hwU hhU (by omega) (by omega)
    (by omega) (by omega) (by omega) (by omega)
  rw [stepGo_eq_of_moveSnake hm
    (isInScore_false_of rfl rfl (by show w / 4 + 1 + 1 ≠ w / 4 * 3; omega))]
  have h10 : sub64 10 (sub64 1 1) = 10 := by decide
  simp [firstStepEngine, secondStepEngine, h10]

lemma placeFoodAux_const3 : ∀ fuel : ℕ,
    GameEngine.placeFoodAux 4 4 ⟨3, 2⟩ [⟨3, 2⟩, ⟨2, 2⟩] fuel (fun _ => 3) = none := by
  intro fuel
  induction fuel with
  | zero => rfl
  | succ n ih =>
    rw [GameEngine.placeFoodAux]
    simpa using ih

lemma stepGo_none_of_placeFood {ge1 geM : GameEngine} {rng : ℕ → ℕ} {fuel : ℕ}
    (hm : ge1.moveSnake = some (true, geM)) (hsc : geM.isInScorePosition = true)
    (hpf : GameEngine.placeFoodAux geM.playAreaWidth geM.playAreaHeight geM.foodLocation
      geM.snakeBody fuel rng = none) :
    GameEngine.stepGo ge1 rng fuel = none := by
  unfold GameEngine.stepGo
  rw [hm]
  simp only [Bool.not_true, Bool.false_eq_true, if_false, hsc, if_true]
  unfold GameEngine.placeFood
  simp only []
  rw [hpf]
  rfl

lemma tick_stuck (fuel : ℕ) : geStuck.Tick rngColumn3 fuel = none := by
  rw [Tick_fire (by decide) rfl]
  refine @stepGo_none_of_placeFood _ geStuckMoved rngColumn3 fuel ?_ ?_ ?_
  · decide
  · decide
  · exact placeFoodAux_const3 fuel

lemma placeFoodAux_succeeds {w h : ℕ} {food : Point} {body : List Point} :
    ∀ (k : ℕ) (rng : ℕ → ℕ), 0 < w → 0 < h →
      rng (2 * k) % w ≠ food.X → rng (2 * k + 1) % h ≠ food.Y →
      (⟨rng (2 * k) % w, rng (2 * k + 1) % h⟩ : Point) ∉ body →
      (GameEngine.placeFoodAux w h food body (k + 1) rng).isSome = true := by
  intro k
  induction k with
  | zero =>
    intro rng hw hh hx hy hb
    unfold GameEngine.placeFoodAux
    rw [if_neg (by omega)]
    rw [if_neg (show ¬((((⟨rng 0 % w, rng 1 % h⟩ : Point)).X == food.X ||
        ((⟨rng 0 % w, rng 1 % h⟩ : Point)).Y == food.Y) = true) by
      simp only [Bool.or_eq_true, beq_iff_eq]
      push_neg
      exact ⟨by simpa using hx, by simpa using hy⟩)]
    rw [if_neg (show ¬((List.contains body ⟨rng 0 % w, rng 1 % h⟩) = true) from
      fun hcon => hb (List.mem_of_elem_eq_true hcon))]
    rfl
  | succ n ih =>
    intro rng hw hh hx hy hb
    have hx2 : (fun i => rng (i + 2)) (2 * n) % w ≠ food.X := by
      show rng (2 * n + 2) % w ≠ food.X
      rw [(by omega : 2 * n + 2 = 2 * (n + 1))]
      exact hx
    have hy2 : (fun i => rng (i + 2)) (2 * n + 1) % h ≠ food.Y := by
      show rng (2 * n + 1 + 2) % h ≠ food.Y
      rw [(by omega : 2 * n + 1 + 2 = 2 * (n + 1) + 1)]
      exact hy
    have hb2 : (⟨(fun i => rng (i + 2)) (2 * n) % w,
        (fun i => rng (i + 2)) (2 * n + 1) % h⟩ : Point) ∉ body := by
      show (⟨rng (2 * n + 2) % w, rng (2 * n + 1 + 2) % h⟩ : Point) ∉ body
      rw [(by omega : 2 * n + 2 = 2 * (n + 1)), (by omega : 2 * n + 1 + 2 = 2 * (n + 1) + 1)]
      exact hb
    unfold GameEngine.placeFoodAux
    rw [if_neg (by omega)]
    by_cases hc1 : (((⟨rng 0 % w, rng 1 % h⟩ : Point)).X == food.X ||
        ((⟨rng 0 % w, rng 1 % h⟩ : Point)).Y == food.Y) = true
    · rw [if_pos hc1]
      exact ih (fun i => rng (i + 2)) hw hh hx2 hy2 hb2
    · rw [if_neg hc1]
      by_cases hc2 : (List.contains body ⟨rng 0 % w, rng 1 % h⟩) = true
      · rw [if_pos hc2]
        exact ih (fun i => rng (i + 2)) hw hh hx2 hy2 hb2
      · rw [if_neg hc2]
        rfl

/-- C1 (counterexample): on a freshly reset 20×20 engine the very first
call to `Tick` already executes a simulation step (the snake body moves),
so it is false that the first 9 calls execute zero steps and the 10th
executes the first step. -/
theorem C1_first_call_steps :
    (runState 1 (NewGameEngine 20 20) rngZero [Op.tick]).map GameEngine.snakeBody ≠
      some (NewGameEngine 20 20).snakeBody := by
  decide

/-- C1 (amended): for every freshly reset engine (width ≥ 8 within the
`uint` range, height ≥ 1), the first call to `Tick` executes the first
simulation step, calls 2–11 execute zero steps (the snake body stays
where the first step put it), and call 12 executes the second step:
the throttle cadence is 11 calls per step, with the step at the start
of each period. -/
theorem C1_tick_cadence (w h k : ℕ) (rng : ℕ → ℕ) (fuel : ℕ)
    (hw : 8 ≤ w) (hwU : w < U) (hh : 1 ≤ h) (hhU : h < U)
    (hk1 : 1 ≤ k) (hk11 : k ≤ 11) :
    (runState fuel (NewGameEngine w h) rng (List.replicate k Op.tick)).map
        GameEngine.snakeBody = some [⟨w / 4 + 1, h / 2⟩, ⟨w / 4, h / 2⟩] ∧
    (runState fuel (NewGameEngine w h) rng (List.replicate 12 Op.tick)).map
        GameEngine.snakeBody = some [⟨w / 4 + 2, h / 2⟩, ⟨w / 4 + 1, h / 2⟩] := by
  constructor
  · obtain ⟨j, rfl⟩ : ∃ j, k = j + 1 := ⟨k - 1, by omega⟩
    unfold runState
    rw [show List.replicate (j + 1) Op.tick = Op.tick :: List.replicate j Op.tick from rfl,
      run_cons_tick (tick_fresh hw hwU hh hhU rng fuel),
      run_throttle_chain j (firstStepEngine w h) rfl (show j ≤ 10 by omega) rng fuel]
    rfl
  · have e1 : run fuel (NewGameEngine w h) rng (List.replicate 12 Op.tick)
        = run fuel (firstStepEngine w h) rng (List.replicate 10 Op.tick ++ [Op.tick]) := by
      rw [show List.replicate 12 Op.tick =
          Op.tick :: (List.replicate 10 Op.tick ++ [Op.tick]) from rfl]
      exact run_cons_tick (tick_fresh hw hwU hh hhU rng fuel)
    have e2 : run fuel (firstStepEngine w h) rng (List.replicate 10 Op.tick ++ [Op.tick])
        = run fuel ({ firstStepEngine w h with tickThrottleCount := 0 }) rng [Op.tick] := by
      exact run_append_some
        (by exact run_throttle_chain 10 (firstStepEngine w h) rfl (Nat.le_refl 10) rng fuel)
    have e3 : run fuel ({ firstStepEngine w h with tickThrottleCount := 0 }) rng [Op.tick]
        = some (secondStepEngine w h, rng) := by
      rw [run_cons_tick (tick_second hw hwU hh hhU rng fuel)]
      rfl
    unfold runState
    rw [e1, e2, e3]
    rfl

/-- Witness for C1 on the 20×20 board at call 5. -/
theorem C1_tick_cadence_witness :
    (runState 1 (NewGameEngine 20 20) rngZero (List.replicate 5 Op.tick)).map
        GameEngine.snakeBody = some [⟨20 / 4 + 1, 20 / 2⟩, ⟨20 / 4, 20 / 2⟩] ∧
    (runState 1 (NewGameEngine 20 20) rngZero (List.replicate 12 Op.tick)).map
        GameEngine.snakeBody = some [⟨20 / 4 + 2, 20 / 2⟩, ⟨20 / 4 + 1, 20 / 2⟩] :=
  C1_tick_cadence 20 20 5 rngZero 1 (by decide) (by decide) (by decide) (by decide)
    (by decide) (by decide)

/-- C2 (counterexample): the engine constructed with width 1 > 0 and
height 1 > 0 places the food on the snake head, violating the claimed
invariant already at construction (for width ≤ 3 the integer division
`width/4` is 0, so food and head coincide and the second body point
wraps around 2^64). -/
theorem C2_small_board_cex :
    0 < (NewGameEngine 1 1).playAreaWidth ∧ 0 < (NewGameEngine 1 1).playAreaHeight ∧
    (NewGameEngine 1 1).foodLocation ∈ (NewGameEngine 1 1).snakeBody := by
  decide

/-- C2 (amended): for every reachable engine with width ≥ 4 and
height ≥ 1 (within the `uint` range), every snake body point and the
food location lie within the grid, and the food is never on the snake. -/
theorem C2_bounds (ge : GameEngine) (p : Point) (h : Reaches ge)
    (hw : 4 ≤ ge.playAreaWidth) (hwU : ge.playAreaWidth < U)
    (hh : 1 ≤ ge.playAreaHeight) (hhU : ge.playAreaHeight < U)
    (hp : p ∈ ge.snakeBody ∨ p = ge.foodLocation) :
    p.X < ge.playAreaWidth ∧ p.Y < ge.playAreaHeight ∧
      ge.foodLocation ∉ ge.snakeBody := by
  obtain ⟨_, h2, h3, h4, h5⟩ := bounds_inv h hw hwU hh hhU
  rcases hp with hp | rfl
  · exact ⟨(h2 p hp).1, (h2 p hp).2, h5⟩
  · exact ⟨h3, h4, h5⟩

/-- Witness for C2 at the freshly constructed 4×4 engine and its head. -/
theorem C2_bounds_witness :
    (⟨1, 2⟩ : Point).X < (NewGameEngine 4 4).playAreaWidth ∧
    (⟨1, 2⟩ : Point).Y < (NewGameEngine 4 4).playAreaHeight ∧
    (NewGameEngine 4 4).foodLocation ∉ (NewGameEngine 4 4).snakeBody :=
  C2_bounds (NewGameEngine 4 4) ⟨1, 2⟩ (Reaches.init 4 4) (by decide) (by decide)
    (by decide) (by decide) (Or.inl (by decide))

/-- C3: once the status is `Lost`, `Tick` (in both source revisions)
returns the engine unchanged — hence returns `Lost` and leaves score,
speed, body and food untouched — and `UpdateDirection` never mutates
score, speed, body or food; only the explicit resets `NewGame`/`PlayNew`
do. -/
theorem C3_lost_frame (ge : GameEngine) (rng : ℕ → ℕ) (fuel : ℕ) (d : Direction)
    (h : ge.status = .Lost) :
    ge.Tick rng fuel = some (ge, rng) ∧
    ge.TickB rng fuel = some (ge, rng) ∧
    (ge.UpdateDirection d).score = ge.score ∧
    (ge.UpdateDirection d).speed = ge.speed ∧
    (ge.UpdateDirection d).snakeBody = ge.snakeBody ∧
    (ge.UpdateDirection d).foodLocation = ge.foodLocation := by
  refine ⟨Tick_lost h, TickB_not_playing (by rw [h]; simp), ?_, ?_, ?_, ?_⟩ <;>
    (unfold GameEngine.UpdateDirection; split) <;> rfl

/-- Witness for C3 at a lost 4×4 engine. -/
theorem C3_lost_frame_witness :
    ({ NewGameEngine 4 4 with status := .Lost } : GameEngine).Tick rngZero 1 =
        some ({ NewGameEngine 4 4 with status := .Lost }, rngZero) ∧
    ({ NewGameEngine 4 4 with status := .Lost } : GameEngine).TickB rngZero 1 =
        some ({ NewGameEngine 4 4 with status := .Lost }, rngZero) ∧
    (({ NewGameEngine 4 4 with status := .Lost } : GameEngine).UpdateDirection .Up).score =
        ({ NewGameEngine 4 4 with status := .Lost } : GameEngine).score ∧
    (({ NewGameEngine 4 4 with status := .Lost } : GameEngine).UpdateDirection .Up).speed =
        ({ NewGameEngine 4 4 with status := .Lost } : GameEngine).speed ∧
    (({ NewGameEngine 4 4 with status := .Lost } : GameEngine).UpdateDirection .Up).snakeBody =
        ({ NewGameEngine 4 4 with status := .Lost } : GameEngine).snakeBody ∧
    (({ NewGameEngine 4 4 with status := .Lost } : GameEngine).UpdateDirection .Up).foodLocation =
        ({ NewGameEngine 4 4 with status := .Lost } : GameEngine).foodLocation :=
  C3_lost_frame { NewGameEngine 4 4 with status := .Lost } rngZero 1 .Up rfl

/-- C4 (counterexample): on the 4×4 board the twelfth `Tick` is the
scoring step (score goes from 0 to 1) yet the body length stays 2, so
the length does not increase by 1 on the step on which the head reaches
the food — growth is deferred to the following step. -/
theorem C4_scoring_no_growth_cex :
    (runState 1 (NewGameEngine 4 4) rngZero (List.replicate 11 Op.tick)).map
        (fun ge => (ge.score, ge.snakeBody.length)) = some (0, 2) ∧
    (runState 1 (NewGameEngine 4 4) rngZero (List.replicate 12 Op.tick)).map
        (fun ge => (ge.score, ge.snakeBody.length)) = some (1, 2) := by
  decide

/-- C4 (amended): across any successful `Tick` the body length never
decreases and can only grow, by exactly 1, when an elongation is pending
(`snakeShouldElongate`, set by the previous scoring step); moreover on an
executed step (status not `Lost`, throttle counter 0) the length changes
by exactly the pending-elongation bit unless the step loses the game. -/
theorem C4_length (ge ge' : GameEngine) (rng rng' : ℕ → ℕ) (fuel : ℕ)
    (h : ge.Tick rng fuel = some (ge', rng')) :
    (ge'.snakeBody.length = ge.snakeBody.length ∨
      (ge.snakeShouldElongate = true ∧ ge'.snakeBody.length = ge.snakeBody.length + 1)) ∧
    (ge.status = .Lost ∨ ge.tickThrottleCount ≠ 0 ∨ ge'.status = .Lost ∨
      ge'.snakeBody.length =
        ge.snakeBody.length + (if ge.snakeShouldElongate then 1 else 0)) := by
  rcases tick_spec h with ⟨hL, rfl, _⟩ | ⟨hL, hc, rfl, _⟩ | ⟨hL, hc, hstep⟩
  · exact ⟨Or.inl rfl, Or.inl hL⟩
  · exact ⟨Or.inl rfl, Or.inr (Or.inl hc)⟩
  · obtain ⟨valid, geM, hm, hrest⟩ := stepGo_spec hstep
    rcases moveSnake_spec hm with ⟨hv, rfl⟩ | ⟨hv, hne, next, hloss, rfl⟩
    · rcases hrest with ⟨_, rfl, _⟩ | ⟨hvt, _, _, _⟩ | ⟨hvt, _, _⟩
      · exact ⟨Or.inl rfl, Or.inr (Or.inr (Or.inl rfl))⟩
      · rw [hv] at hvt; exact absurd hvt (by simp)
      · rw [hv] at hvt; exact absurd hvt (by simp)
    · have hlen : (if ge.snakeShouldElongate = true then
            next :: ge.snakeBody
          else (next :: ge.snakeBody).dropLast).length =
          ge.snakeBody.length + (if ge.snakeShouldElongate then 1 else 0) := by
        cases hse : ge.snakeShouldElongate <;> simp
      rcases hrest with ⟨hvt, _, _⟩ | ⟨_, _, rfl, _⟩ | ⟨_, _, p, rest, hp, rfl, _⟩
      · rw [hv] at hvt; exact absurd hvt (by simp)
      · constructor
        · cases hse : ge.snakeShouldElongate <;> rw [hse] at hlen <;>
            simp at hlen <;> simp [hlen, hse]
        · exact Or.inr (Or.inr (Or.inr hlen))
      · constructor
        · cases hse : ge.snakeShouldElongate <;> rw [hse] at hlen <;>
            simp at hlen <;> simp [hlen, hse]
        · exact Or.inr (Or.inr (Or.inr hlen))

/-- Witness for C4: the first tick of a fresh 4×4 game. -/
theorem C4_length_witness :
    ((firstStepEngine 4 4).snakeBody.length = (NewGameEngine 4 4).snakeBody.length ∨
      ((NewGameEngine 4 4).snakeShouldElongate = true ∧
        (firstStepEngine 4 4).snakeBody.length = (NewGameEngine 4 4).snakeBody.length + 1)) ∧
    ((NewGameEngine 4 4).status = .Lost ∨ (NewGameEngine 4 4).tickThrottleCount ≠ 0 ∨
      (firstStepEngine 4 4).status = .Lost ∨
      (firstStepEngine 4 4).snakeBody.length =
        (NewGameEngine 4 4).snakeBody.length +
          (if (NewGameEngine 4 4).snakeShouldElongate then 1 else 0)) :=
  C4_length (NewGameEngine 4 4) (firstStepEngine 4 4) rngZero rngZero 1 rfl

/-- C5 (counterexample): at width 6, height 2 the code places the food
at `((6/4)*3, 1) = (3, 1)` while the claimed formula `⌊3·6/4⌋ = 4` gives
`(4, 1)`. -/
theorem C5_food_formula_cex :
    (NewGameEngine 6 2).foodLocation ≠ specInitialFood 6 2 := by
  decide

/-- C5 (amended): immediately after a reset (`NewGameEngine`, `NewGame`
or `PlayNew`) the food location is `((width/4)·3, height/2)` — the
truncating division happens before the multiplication by 3. -/
theorem C5_initial_food (w h : ℕ) (ge : GameEngine) :
    (NewGameEngine w h).foodLocation = ⟨w / 4 * 3, h / 2⟩ ∧
    ge.NewGame.foodLocation = ⟨ge.playAreaWidth / 4 * 3, ge.playAreaHeight / 2⟩ ∧
    ge.PlayNew.foodLocation = ⟨ge.playAreaWidth / 4 * 3, ge.playAreaHeight / 2⟩ :=
  ⟨rfl, rfl, rfl⟩

/-- C6 (counterexample): a reachable state violates
`tickThrottleCount ≤ baseInterval(speed)`: after the fifth scoring step
on a 4×4 board the throttle counter was reset to 10 using the
pre-increment speed 1, and the speed then became 2, whose base interval
is 9. -/
theorem C6_throttle_bound_cex :
    ¬ ∀ ge : GameEngine, Reaches ge → ge.tickThrottleCount ≤ baseInterval ge.speed := by
  intro hcl
  have hr : runState 1 (NewGameEngine 4 4) rngFoodTrace opsSpeedTrace = some geSpeedTrace := by
    decide
  exact absurd (hcl geSpeedTrace (runState_reaches (Reaches.init 4 4) hr)) (by decide)

/-- C6 (amended): for every reachable engine whose speed lies in
`[1, 11]`, the throttle counter is at most `baseInterval(speed) + 1`
(the extra 1 is realized right after a speed-increasing tick); for
speeds ≥ 12 the reset value `10 - (speed - 1)` wraps around 2^64, so no
such bound holds there. -/
theorem C6_throttle_bound (ge : GameEngine) (h : Reaches ge)
    (h1 : 1 ≤ ge.speed) (h11 : ge.speed ≤ 11) :
    ge.tickThrottleCount ≤ baseInterval ge.speed + 1 := by
  have hinv := (speed_counter_inv h).2 h11
  unfold baseInterval
  omega

/-- Witness for C6 at the freshly constructed 4×4 engine. -/
theorem C6_throttle_bound_witness :
    (NewGameEngine 4 4).tickThrottleCount ≤ baseInterval (NewGameEngine 4 4).speed + 1 :=
  C6_throttle_bound (NewGameEngine 4 4) (Reaches.init 4 4) (by decide) (by decide)

/-- C7 (counterexample): on a fresh engine (pending direction `Right`),
calling `UpdateDirection Up` and then `UpdateDirection Down` leaves the
pending direction `Up`, not the original `Right`: the second (reversal)
call is the no-op, it does not undo the first. -/
theorem C7_reversal_cex :
    (((NewGameEngine 20 20).UpdateDirection .Up).UpdateDirection
        (Direction.opposite .Up)).snakeDirection ≠
      (NewGameEngine 20 20).snakeDirection := by
  decide

/-- C7 (amended): for every engine state and direction `d`, calling
`UpdateDirection d` and then immediately `UpdateDirection (opposite d)`
leaves the whole engine exactly as it was after the first call: the
reversal is always rejected. -/
theorem C7_reversal_noop (ge : GameEngine) (d : Direction) :
    (ge.UpdateDirection d).UpdateDirection d.opposite = ge.UpdateDirection d := by
  cases d <;> cases h1 : ge.snakeDirection <;> cases h2 : ge.snakeDirectionLastMoved <;>
    simp [GameEngine.UpdateDirection, Direction.isOpposite, Direction.opposite, h1, h2]

/-- C8 (counterexample): construction with width 0 does not abort: it
returns a fully formed engine in status `New` whose second body point has
wrapped to 2^64 − 1 and whose food sits on the snake head. -/
theorem C8_zero_dims_cex :
    (NewGameEngine 0 5).status = .New ∧
    (NewGameEngine 0 5).snakeBody = [⟨0, 2⟩, ⟨U - 1, 2⟩] ∧
    (NewGameEngine 0 5).foodLocation ∈ (NewGameEngine 0 5).snakeBody := by
  decide

/-- C8 (amended): `NewGameEngine` performs no validation of its
dimensions: with width 0 or height 0 it still returns an engine in
status `New` carrying those dimensions, and the engine is degenerate
(the food lies on the snake, or a body point lies outside the grid). -/
theorem C8_no_validation (w h : ℕ) (hzero : w = 0 ∨ h = 0) :
    (NewGameEngine w h).status = .New ∧
    (NewGameEngine w h).playAreaWidth = w ∧
    (NewGameEngine w h).playAreaHeight = h ∧
    ((NewGameEngine w h).foodLocation ∈ (NewGameEngine w h).snakeBody ∨
      allInGrid w h (NewGameEngine w h).snakeBody = false) := by
  refine ⟨rfl, rfl, rfl, ?_⟩
  rcases hzero with rfl | rfl
  · left
    simp [NewGameEngine, GameEngine.NewGame]
  · right
    show allInGrid w 0 (NewGameEngine w 0).snakeBody = false
    unfold allInGrid inGrid
    simp
    exact ⟨_, List.mem_cons_self _ _⟩

/-- Witness for C8 at dimensions 0×5. -/
theorem C8_no_validation_witness :
    (NewGameEngine 0 5).status = .New ∧
    (NewGameEngine 0 5).playAreaWidth = 0 ∧
    (NewGameEngine 0 5).playAreaHeight = 5 ∧
    ((NewGameEngine 0 5).foodLocation ∈ (NewGameEngine 0 5).snakeBody ∨
      allInGrid 0 5 (NewGameEngine 0 5).snakeBody = false) :=
  C8_no_validation 0 5 (Or.inl rfl)

/-- C9 (counterexample): `Tick` does not terminate for every random
sequence: from the reachable 4×4 state whose next tick eats the food, a
source that always draws 3 makes every candidate share the food's column,
so the rejection-sampling loop in `placeFood` never returns (`none` for
every fuel bound). -/
theorem C9_divergence_cex :
    ¬ ∀ ge : GameEngine, Reaches ge → 0 < ge.playAreaWidth → 0 < ge.playAreaHeight →
      ∀ rng : ℕ → ℕ, ∃ fuel : ℕ, (ge.Tick rng fuel).isSome = true := by
  intro hcl
  have hr : runState 1 (NewGameEngine 4 4) rngZero (List.replicate 11 Op.tick) =
      some geStuck := by decide
  obtain ⟨fuel, hf⟩ :=
    hcl geStuck (runState_reaches (Reaches.init 4 4) hr) (by decide) (by decide) rngColumn3
  rw [tick_stuck fuel] at hf
  simp at hf

/-- C9 (amended): the food-placement loop terminates as soon as the
random sequence contains a draw pair that differs from the current food
in both coordinates and misses the body; `UpdateDirection`, `NewGame`,
`PlayNew` and the accessors are total functions of the embedding. -/
theorem C9_placeFood_terminates (w h k : ℕ) (food : Point) (body : List Point)
    (rng : ℕ → ℕ) (hw : 0 < w) (hh : 0 < h)
    (hx : rng (2 * k) % w ≠ food.X) (hy : rng (2 * k + 1) % h ≠ food.Y)
    (hb : (⟨rng (2 * k) % w, rng (2 * k + 1) % h⟩ : Point) ∉ body) :
    (GameEngine.placeFoodAux w h food body (k + 1) rng).isSome = true :=
  placeFoodAux_succeeds k rng hw hh hx hy hb

/-- Witness for C9: the all-zero stream immediately yields `(0,0)`. -/
theorem C9_placeFood_terminates_witness :
    (GameEngine.placeFoodAux 4 4 ⟨3, 2⟩ [⟨3, 2⟩, ⟨2, 2⟩] 1 rngZero).isSome = true :=
  C9_placeFood_terminates 4 4 0 ⟨3, 2⟩ [⟨3, 2⟩, ⟨2, 2⟩] rngZero (by decide) (by decide)
    (by decide) (by decide) (by decide)

/-- C10: in every reachable engine state the body length equals
`score + 2` when no elongation is pending and `score + 1` when one is;
the relation is preserved by construction, resets, `UpdateDirection`
and `Tick`. -/
theorem C10_length_score (ge : GameEngine) (h : Reaches ge) :
    ge.snakeBody.length = ge.score + (if ge.snakeShouldElongate then 1 else 2) :=
  length_score_inv h

/-- Witness for C10 at the freshly constructed 4×4 engine. -/
theorem C10_length_score_witness :
    (NewGameEngine 4 4).snakeBody.length =
      (NewGameEngine 4 4).score +
        (if (NewGameEngine 4 4).snakeShouldElongate then 1 else 2) :=
  C10_length_score (NewGameEngine 4 4) (Reaches.init 4 4)
